import Mathlib

/-!
# readium-lcp-server: storing an encrypted publication, and server start-up

A shallow embedding of

* `encrypt/store_publication.go` (`StorePublication`, `cleanupTempFile`), and
* `cmd/lcpserver/main.go` (`main`),

as state-passing functions over an explicit world.  Every call that leaves the
function under study (the operating system, the storage package, the HTTP
server) is recorded in a trace, and its result is taken from an environment of
oracles, so that theorems quantify over every behaviour of the collaborators.
-/

set_option autoImplicit false

namespace encrypt

/-! ## Data model -/

/-- Contents of a local file or of a stored object, as a sequence of byte values. -/
abbrev Bytes := List Nat

/-- A Go `error` value, identified by its message. -/
structure Error where
  msg : String
deriving DecidableEq, Repr

/-- Modelled from the spec: the declaration of `storage.S3Config` is not part of the
sources at hand.  The fields are those of the object-store variant of section 4.1
(endpoint, region, bucket, access id / secret / session token, TLS-disable flag,
path-style flag), under the names `main.go` lines 104-113 gives them. -/
structure S3Config where
  ID : String
  Secret : String
  Token : String
  Endpoint : String
  Bucket : String
  Region : String
  DisableSSL : Bool
  ForcePathStyle : Bool
deriving DecidableEq, Repr

/-- The Go zero value `storage.S3Config{}`. -/
def S3Config.zero : S3Config :=
  ⟨"", "", "", "", "", "", false, false⟩

/-- The fields of `apilcp.LcpPublication` that `StorePublication` reads. -/
structure LcpPublication where
  ContentID : String
  StorageMode : Int
deriving DecidableEq, Repr

/-- An open `*os.File`: the name it was opened under and the bytes a reader gets from it. -/
structure File where
  name : String
  data : Bytes
deriving DecidableEq, Repr

/-- A `storage.Store` obtained from `storage.S3`: the object store its configuration designates. -/
structure Store where
  conf : S3Config
deriving DecidableEq, Repr

/-- Calls that leave `StorePublication`, in the order they are made. -/
inductive Event
  | s3Init (conf : S3Config)
  | osOpen (path : String)
  | storeAdd (conf : S3Config) (key : String) (data : Bytes)
  | fileClose (path : String)
  | osRemove (path : String)
deriving DecidableEq, Repr

/-- The world `StorePublication` acts on: the local disk, the object stores, and the
trace of calls made so far. -/
structure World where
  files : List (String × Bytes)
  objects : List ((S3Config × String) × Bytes)
  trace : List Event
deriving DecidableEq, Repr

/-- Results of the collaborators, which the function under study cannot influence:
the value of the constant `apilcp.Storage_s3` (its declaration is not in the sources at
hand), and for each call whether it fails (`some e`) or not (`none`). -/
structure Env where
  Storage_s3 : Int
  s3Err : S3Config → Option Error
  addErr : S3Config → String → Bytes → Option Error
  openErr : String → Option Error
  closeErr : String → Option Error
  removeErr : String → Option Error

/-- How a call of a Go function ends: it returns its `error` result (`none` is `nil`),
or it panics with `index out of range [idx] with length len`. -/
inductive Outcome
  | returned (err : Option Error)
  | panicked (idx len : Nat)
deriving DecidableEq, Repr

/-! ## Library calls -/

/-- Fields of a character sequence separated by `sep`: always at least one field. -/
def splitChars (sep : Char) : List Char → List (List Char)
  | [] => [[]]
  | c :: cs =>
    if c = sep then [] :: splitChars sep cs
    else
      match splitChars sep cs with
      | [] => [[c]]
      | f :: fs => (c :: f) :: fs

/-- Go `strings.Split(s, sep)` for a separator of one character: the substrings of `s`
between the occurrences of `sep`; `n` occurrences give `n + 1` fields. -/
def Split (s : String) (sep : Char) : List String :=
  (splitChars sep s.data).map String.mk

/-- Binding of `path` on the disk. -/
def lookupFile (files : List (String × Bytes)) (path : String) : Option Bytes :=
  (files.find? (fun p => decide (p.1 = path))).map Prod.snd

/-- The disk without `path`. -/
def removeFile (files : List (String × Bytes)) (path : String) : List (String × Bytes) :=
  files.filter (fun p => !decide (p.1 = path))

/-- Object stored under `key` in the store `conf` designates. -/
def lookupObject (objects : List ((S3Config × String) × Bytes)) (conf : S3Config)
    (key : String) : Option Bytes :=
  (objects.find? (fun p => decide (p.1 = (conf, key)))).map Prod.snd

/-- Records a call in the trace. -/
def World.log (w : World) (e : Event) : World :=
  { w with trace := w.trace ++ [e] }

/-- Modelled from the spec: `storage.S3` is not part of the sources at hand.  It builds the
object-store backend for a configuration, or fails. -/
def storageS3 (env : Env) (conf : S3Config) (w : World) : Except Error Store × World :=
  match env.s3Err conf with
  | some e => (.error e, w.log (.s3Init conf))
  | none => (.ok ⟨conf⟩, w.log (.s3Init conf))

/-- Go `os.Open(path)`: fails when the file does not exist or cannot be read; otherwise
gives a handle named `path`. -/
def osOpen (env : Env) (path : String) (w : World) : Except Error File × World :=
  match lookupFile w.files path with
  | none => (.error ⟨"open " ++ path ++ ": no such file or directory"⟩, w.log (.osOpen path))
  | some data =>
    match env.openErr path with
    | some e => (.error e, w.log (.osOpen path))
    | none => (.ok ⟨path, data⟩, w.log (.osOpen path))

/-- Modelled from the spec: the `Add` method of `storage.Store` is not part of the sources at
hand.  Section 4.1: it uploads the stream under key `id`, last writer wins, and a failed
call leaves no partial write visible. -/
def Store.Add (env : Env) (store : Store) (key : String) (r : File) (w : World) :
    Option Error × World :=
  match env.addErr store.conf key r.data with
  | some e => (some e, w.log (.storeAdd store.conf key r.data))
  | none =>
    (none, { (w.log (.storeAdd store.conf key r.data)) with
              objects := ((store.conf, key), r.data) :: w.objects })

/-- Go `f.Close()`; its `error` result is what the environment says. -/
def File.Close (env : Env) (f : File) (w : World) : Option Error × World :=
  (env.closeErr f.name, w.log (.fileClose f.name))

/-- Go `os.Remove(path)`: on success the file is gone from the disk; on failure the
disk is unchanged. -/
def osRemove (env : Env) (path : String) (w : World) : Option Error × World :=
  match env.removeErr path with
  | some e => (some e, w.log (.osRemove path))
  | none => (none, { (w.log (.osRemove path)) with files := removeFile w.files path })

/-! ## `store_publication.go` -/

/-- The function `cleanupTempFile` closes and deletes a temporary file; both `error`
results are dropped (lines 53-59). -/
def cleanupTempFile (env : Env) (f : Option File) (w : World) : World :=
  match f with
  | none => w
  | some f =>
    let w1 := (f.Close env w).2
    (osRemove env f.name w1).2

/-- The function `StorePublication` stores an encrypted file into its definitive storage
(lines 18-50).  The deferred `cleanupTempFile(file)` runs after the result of the
function has been fixed. -/
def StorePublication (env : Env) (pub : LcpPublication) (inputPath storagePath : String)
    (w : World) : Outcome × World :=
  if pub.StorageMode ≠ env.Storage_s3 then
    (.returned (some ⟨"only S3 storage is processed in StorePublication"⟩), w)
  else
    let s3Split := Split storagePath ':'
    match s3Split[1]? with
    | none => (.panicked 1 s3Split.length, w)
    | some region =>
      match s3Split[2]? with
      | none => (.panicked 2 s3Split.length, w)
      | some bucket =>
        let s3conf : S3Config := { S3Config.zero with Region := region, Bucket := bucket }
        match storageS3 env s3conf w with
        | (.error _, w1) => (.returned (some ⟨"could not init the S3 storage"⟩), w1)
        | (.ok store, w1) =>
          match osOpen env inputPath w1 with
          | (.error err, w2) => (.returned (some err), w2)
          | (.ok file, w2) =>
            match store.Add env pub.ContentID file w2 with
            | (some err, w3) => (.returned (some err), cleanupTempFile env (some file) w3)
            | (none, w3) => (.returned none, cleanupTempFile env (some file) w3)

/-- Lines 32-50 of `StorePublication`, as a function of the configuration built at
lines 26-28: what the function does once the descriptor has been read. -/
def storeWithConfig (env : Env) (pub : LcpPublication) (inputPath : String) (s3conf : S3Config)
    (w : World) : Outcome × World :=
  match storageS3 env s3conf w with
  | (.error _, w1) => (.returned (some ⟨"could not init the S3 storage"⟩), w1)
  | (.ok store, w1) =>
    match osOpen env inputPath w1 with
    | (.error err, w2) => (.returned (some err), w2)
    | (.ok file, w2) =>
      match store.Add env pub.ContentID file w2 with
      | (some err, w3) => (.returned (some err), cleanupTempFile env (some file) w3)
      | (none, w3) => (.returned none, cleanupTempFile env (some file) w3)

/-- The configuration `StorePublication` builds from the second and third field of a
descriptor: every other field keeps its zero value. -/
def configOf (region bucket : String) : S3Config :=
  ⟨"", "", "", "", bucket, region, false, false⟩

/-- The descriptor `"s3:<region>:<bucket>"` of section 6. -/
def descriptor (region bucket : String) : String :=
  "s3:" ++ region ++ ":" ++ bucket

/-! ## Concrete worlds used to evaluate the code -/

/-- An environment in which `Storage_s3` is 1 and no call fails. -/
def envOk : Env :=
  ⟨1, fun _ => none, fun _ _ _ => none, fun _ => none, fun _ => none, fun _ => none⟩

/-- An environment in which closing and removing a file fail and nothing else does. -/
def envCleanupFails : Env :=
  ⟨1, fun _ => none, fun _ _ _ => none, fun _ => none,
    fun _ => some ⟨"close: bad file descriptor"⟩,
    fun _ => some ⟨"remove: permission denied"⟩⟩

/-- An environment in which the upload fails, and so do closing and removing the file. -/
def envUploadFails : Env :=
  ⟨1, fun _ => none, fun _ _ _ => some ⟨"RequestError: send request failed"⟩, fun _ => none,
    fun _ => some ⟨"close: bad file descriptor"⟩,
    fun _ => some ⟨"remove: permission denied"⟩⟩

/-- A disk holding one encrypted file, with empty object stores and an empty trace. -/
def worldOneFile : World :=
  ⟨[("/tmp/abc123.tmp", [80, 75, 3, 4])], [], []⟩

/-- An S3 publication (in `envOk`) with content id `abc123`. -/
def pubS3 : LcpPublication :=
  ⟨"abc123", 1⟩

/-- A publication whose storage mode is not the S3 mode of `envOk`. -/
def pubFs : LcpPublication :=
  ⟨"abc123", 2⟩

end encrypt

namespace lcpserver

open encrypt (Error S3Config)

/-! ## `cmd/lcpserver/main.go` -/

/-- The field `cfg.Certificate`. -/
structure CertificateSettings where
  Cert : String
  PrivateKey : String
deriving DecidableEq, Repr

/-- The fields of `cfg.LcpServer` that `main` reads. -/
structure LcpServerSettings where
  AuthFile : String
  Database : String
  PublicBaseUrl : String
  Directory : String
  Port : Int
  ReadOnly : Bool
deriving DecidableEq, Repr

/-- The field `cfg.Storage.FileSystem`. -/
structure FileSystemSettings where
  Directory : String
deriving DecidableEq, Repr

/-- The field `cfg.Storage`. -/
structure StorageSettings where
  Mode : String
  FileSystem : FileSystemSettings
  AccessId : String
  Secret : String
  Token : String
  Endpoint : String
  Bucket : String
  Region : String
  DisableSSL : Bool
  PathStyle : Bool
deriving DecidableEq, Repr

/-- The configuration `http.ReadConfig` returns, restricted to what decides the control
flow of `main`. -/
structure Configuration where
  Certificate : CertificateSettings
  LcpServer : LcpServerSettings
  Storage : StorageSettings
deriving DecidableEq, Repr

/-- The value `main` holds in `s3Storage` (a `filestor.Store`). -/
inductive Backend
  /-- The result of `filestor.S3` when it succeeded. -/
  | s3 (conf : S3Config)
  /-- The first result of a `filestor.S3` call that returned an error, kept unchecked. -/
  | s3Failed (conf : S3Config) (err : Error)
  /-- The result of `filestor.NewFileSystem`. -/
  | fileSystem (directory url : String)
deriving DecidableEq, Repr

/-- Calls that leave `main`, in the order they are made.  Calls to the logger, the
assembly of the router and of the `DefaultLinks` table are left out: they do not
decide the control flow. -/
inductive Call
  | readConfig (file : String)
  | loadX509KeyPair (cert key : String)
  | setupDB (uri : String)
  | automigrate
  | filestorS3 (conf : S3Config)
  | mkdirAll (path : String)
  | newFileSystem (directory url : String)
  | newPackager (store : Backend) (workers : Nat)
  | stat (path : String)
  | create (path : String)
  | writeString (path : String)
  | initAuth (realm file : String)
  | registerRoutes
  /-- The call `server.Src.Feed(packager.Incoming)`. -/
  | sourceFeed
  /-- A call of `Stop` on `server.Src`. -/
  | sourceStop
  /-- The goroutine started at line 211, which runs `server.ListenAndServe()`. -/
  | goListenAndServe (addr : String)
  | signalNotify
  /-- The receive `<-c` at line 223 got the interrupt signal. -/
  | receiveSignal
  | contextWithTimeout (nanoseconds : Nat)
  /-- The call `server.Shutdown(ctx)`, with the timeout of `ctx`. -/
  | shutdown (nanoseconds : Nat)
  | exit (code : Int)
deriving DecidableEq, Repr

/-- Results of the collaborators of `main`. -/
structure Externals where
  /-- Value of `os.Getenv("READIUM_LCPSERVER_CONFIG")`. -/
  configEnv : String
  readConfig : String → Except Error Configuration
  loadX509KeyPair : String → String → Option Error
  setupDB : String → Option Error
  automigrate : Option Error
  filestorS3 : S3Config → Option Error
  stat : String → Option Error
  /-- Directory of the source file, from `runtime.Caller(0)`. -/
  here : String
  /-- Go `filepath.Join` on two elements: the joined and cleaned path. -/
  filepathJoin : String → String → String
  create : String → Option Error
  /-- Whether an interrupt signal is ever delivered to the process. -/
  interrupt : Bool
  /-- Result of `server.Shutdown`. -/
  shutdown : Option Error

/-- How a run of `main` ends: a panic, `os.Exit`, or waiting for ever on the signal channel. -/
inductive Ending
  | panicked (msg : String)
  | exited (code : Int)
  | blocked
deriving DecidableEq, Repr

/-- Go `time.Second`, in nanoseconds. -/
def Second : Nat := 1000000000

/-- Lines 51-96 of `main`: reads the configuration, checks the certificate, the private
key and the passwords file, loads the key pair and sets up the database.  Gives the
configuration and the database URI, or the message of the panic. -/
def loadSettings (x : Externals) : Except String (Configuration × String) × List Call :=
  let configFile := if x.configEnv ≠ "" then x.configEnv else "config.yaml"
  match x.readConfig configFile with
  | .error err => (.error err.msg, [.readConfig configFile])
  | .ok cfg =>
    if cfg.Certificate.Cert = "" then
      (.error "Must specify a certificate", [.readConfig configFile])
    else if cfg.Certificate.PrivateKey = "" then
      (.error "Must specify a private key", [.readConfig configFile])
    else if cfg.LcpServer.AuthFile = "" then
      (.error "Must have passwords file", [.readConfig configFile])
    else
      let certCall := Call.loadX509KeyPair cfg.Certificate.Cert cfg.Certificate.PrivateKey
      match x.loadX509KeyPair cfg.Certificate.Cert cfg.Certificate.PrivateKey with
      | some err => (.error err.msg, [.readConfig configFile, certCall])
      | none =>
        let dbURI := if cfg.LcpServer.Database ≠ "" then cfg.LcpServer.Database
          else "sqlite3://file:lcp.sqlite?cache=shared&mode=rwc"
        match x.setupDB dbURI with
        | some err =>
          (.error ("Error setting up the database : " ++ err.msg),
            [.readConfig configFile, certCall, .setupDB dbURI])
        | none =>
          match x.automigrate with
          | some err =>
            (.error ("Error migrating database : " ++ err.msg),
              [.readConfig configFile, certCall, .setupDB dbURI, .automigrate])
          | none =>
            (.ok (cfg, dbURI), [.readConfig configFile, certCall, .setupDB dbURI, .automigrate])

/-- Lines 98-118 of `main`: the storage backend.  An empty directory becomes `"files"`;
in mode `"s3"` the `error` result of `filestor.S3` is dropped (line 114); in any other
mode the directory is created, the `error` result of `os.MkdirAll` being dropped. -/
def storageBackend (x : Externals) (cfg : Configuration) : Backend × List Call :=
  let storagePath :=
    if cfg.Storage.FileSystem.Directory = "" then "files" else cfg.Storage.FileSystem.Directory
  if cfg.Storage.Mode = "s3" then
    let s3Conf : S3Config :=
      { ID := cfg.Storage.AccessId
        Secret := cfg.Storage.Secret
        Token := cfg.Storage.Token
        Endpoint := cfg.Storage.Endpoint
        Bucket := cfg.Storage.Bucket
        Region := cfg.Storage.Region
        DisableSSL := cfg.Storage.DisableSSL
        ForcePathStyle := cfg.Storage.PathStyle }
    match x.filestorS3 s3Conf with
    | some err => (.s3Failed s3Conf err, [.filestorS3 s3Conf])
    | none => (.s3 s3Conf, [.filestorS3 s3Conf])
  else
    (.fileSystem storagePath (cfg.LcpServer.PublicBaseUrl ++ "/files"),
      [.mkdirAll storagePath,
        .newFileSystem storagePath (cfg.LcpServer.PublicBaseUrl ++ "/files")])

/-- Lines 217-236 of `main`: waits for the interrupt signal, shuts the server down with
a timeout of 15 seconds, dropping the result of `Shutdown`, and exits with status 0. -/
def awaitShutdown (x : Externals) : Ending × List Call :=
  if x.interrupt then
    let wait := Second * 15
    -- the result `x.shutdown` of `server.Shutdown(ctx)` is not bound to anything
    (.exited 0,
      [.signalNotify, .receiveSignal, .contextWithTimeout wait, .shutdown wait, .exit 0])
  else
    (.blocked, [.signalNotify])

/-- Lines 119-215 of `main`: builds the packager with 4 workers, checks the passwords
file, writes `config.js`, sets the server up, feeds the packager from `server.Src` and
starts the listener in a goroutine. -/
def startServer (x : Externals) (cfg : Configuration) (s3Storage : Backend) :
    Except String Unit × List Call :=
  match x.stat cfg.LcpServer.AuthFile with
  | some err => (.error err.msg, [.newPackager s3Storage 4, .stat cfg.LcpServer.AuthFile])
  | none =>
    let static :=
      if cfg.LcpServer.Directory = "" then x.filepathJoin x.here "../../web/lcp"
      else cfg.LcpServer.Directory
    let filepathConfigJs := x.filepathJoin static "/config.js"
    match x.create filepathConfigJs with
    | some err =>
      (.error err.msg,
        [.newPackager s3Storage 4, .stat cfg.LcpServer.AuthFile, .create filepathConfigJs])
    | none =>
      (.ok (),
        [.newPackager s3Storage 4, .stat cfg.LcpServer.AuthFile, .create filepathConfigJs,
          .writeString filepathConfigJs,
          .initAuth "Readium License Content Protection Server" cfg.LcpServer.AuthFile,
          .registerRoutes, .sourceFeed,
          .goListenAndServe (":" ++ toString cfg.LcpServer.Port)])

/-- Lines 129-135 of `main`: the path of `config.js`, in the configured directory or,
without one, in `../../web/lcp` from the source file. -/
def configJsPath (x : Externals) (cfg : Configuration) : String :=
  let static :=
    if cfg.LcpServer.Directory = "" then x.filepathJoin x.here "../../web/lcp"
    else cfg.LcpServer.Directory
  x.filepathJoin static "/config.js"

/-- The function `main` (lines 50-237): its ending and the calls it made. -/
def main (x : Externals) : Ending × List Call :=
  match loadSettings x with
  | (.error msg, t1) => (.panicked msg, t1)
  | (.ok (cfg, _), t1) =>
    match storageBackend x cfg with
    | (s3Storage, t2) =>
      match startServer x cfg s3Storage with
      | (.error msg, t3) => (.panicked msg, t1 ++ t2 ++ t3)
      | (.ok (), t3) =>
        match awaitShutdown x with
        | (ending, t4) => (ending, t1 ++ t2 ++ t3 ++ t4)

/-- A trace without the reception of the signal and without a call of `Source.Stop`. -/
def Quiet (t : List Call) : Prop :=
  Call.receiveSignal ∉ t ∧ Call.sourceStop ∉ t

/-! ## Concrete start-ups used to evaluate the code -/

/-- A configuration in file-system mode whose storage directory is empty. -/
def cfgEmptyDirectory : Configuration :=
  { Certificate := ⟨"cert.pem", "key.pem"⟩
    LcpServer := ⟨"htpasswd", "", "http://localhost:8989", "static", 8989, false⟩
    Storage := ⟨"fs", ⟨""⟩, "", "", "", "", "", "", false, false⟩ }

/-- A configuration in mode `"s3"` with a region and no bucket. -/
def cfgS3NoBucket : Configuration :=
  { Certificate := ⟨"cert.pem", "key.pem"⟩
    LcpServer := ⟨"htpasswd", "", "http://localhost:8989", "static", 8989, false⟩
    Storage := ⟨"s3", ⟨""⟩, "id", "secret", "", "", "", "eu-west-1", false, false⟩ }

/-- Collaborators that read `cfg`, fail to build an S3 backend without a bucket, succeed
in everything else, deliver the interrupt signal, and give `shutdown` as the result of
`server.Shutdown`.  The configurations below set the directory `static`, so the one call
of `filepath.Join` is `Join("static", "/config.js")`, which gives `static/config.js`. -/
def externalsFor (cfg : Configuration) (shutdown : Option Error) : Externals :=
  { configEnv := ""
    readConfig := fun _ => .ok cfg
    loadX509KeyPair := fun _ _ => none
    setupDB := fun _ => none
    automigrate := none
    filestorS3 := fun conf => if conf.Bucket = "" then some ⟨"missing bucket"⟩ else none
    stat := fun _ => none
    here := "cmd/lcpserver"
    filepathJoin := fun _ _ => "static/config.js"
    create := fun _ => none
    interrupt := true
    shutdown := shutdown }

end lcpserver

namespace pack

/-! ## The Packager of `lib/pack` -/

/-- Modelled from the spec: the package `pack` (`NewPackager`, `Incoming`, `ManualSource`)
is not part of the sources at hand; `main` only constructs the Packager and feeds it.
Sections 4.2 and 5: a bounded queue of jobs shared by `W` workers.  Jobs are the numbers
`0 .. N-1`.  The state holds the jobs the producer has still to submit, the jobs in the
queue, for each worker the job it has claimed, the log of deliveries (job, worker), and
the jobs whose result has been delivered on their result channel. -/
structure Packager where
  capacity : Nat
  pending : List Nat
  queue : List Nat
  workers : List (Option Nat)
  delivered : List (Nat × Nat)
  resolved : List Nat
deriving DecidableEq, Repr

/-- Modelled from the spec: the atomic actions of the producer and of the workers
(sections 4.2 and 5), which a scheduler interleaves in any order.  A hand-off is the
submission of a job while a worker waits on the empty queue; it is what a queue of
capacity 0 does. -/
inductive Action
  /-- The producer puts its next job in the queue; blocked while the queue is at capacity. -/
  | submit
  /-- The producer hands its next job to worker `worker`, which waits on the empty queue. -/
  | handoff (worker : Nat)
  /-- Worker `worker`, without a job, claims the job at the head of the queue. -/
  | claim (worker : Nat)
  /-- Worker `worker` ends its job (`Add`, then `save`) and delivers the result, a location
  or an error, on the result channel of the job; the job is not retried. -/
  | finish (worker : Nat)
deriving DecidableEq, Repr

/-- Modelled from the spec: a Packager with `W` workers and a queue of capacity `capacity`,
to which the jobs `0 .. N-1` are to be submitted. -/
def start (N W capacity : Nat) : Packager :=
  ⟨capacity, List.range N, [], List.replicate W none, [], []⟩

/-- Modelled from the spec: the effect of one action, `none` when the action is not enabled. -/
def step (a : Action) (p : Packager) : Option Packager :=
  match a with
  | .submit =>
    match p.pending with
    | [] => none
    | j :: rest =>
      if p.queue.length < p.capacity then
        some { p with pending := rest, queue := p.queue ++ [j] }
      else none
  | .handoff i =>
    match p.pending, p.queue, p.workers[i]? with
    | j :: rest, [], some none =>
      some { p with pending := rest, workers := p.workers.set i (some j),
                    delivered := p.delivered ++ [(j, i)] }
    | _, _, _ => none
  | .claim i =>
    match p.queue, p.workers[i]? with
    | j :: rest, some none =>
      some { p with queue := rest, workers := p.workers.set i (some j),
                    delivered := p.delivered ++ [(j, i)] }
    | _, _ => none
  | .finish i =>
    match p.workers[i]? with
    | some (some j) =>
      some { p with workers := p.workers.set i none, resolved := p.resolved ++ [j] }
    | _ => none

/-- A schedule is a sequence of actions; it runs as long as each action is enabled. -/
def run : List Action → Packager → Option Packager
  | [], p => some p
  | a :: rest, p => (step a p).bind (run rest)

/-- The jobs the workers hold. -/
def inFlight (p : Packager) : List Nat :=
  p.workers.filterMap id

/-- No action is enabled: the producer has nothing it can submit and every worker waits. -/
def Idle (p : Packager) : Prop :=
  ∀ a, step a p = none

/-- Number of actions still to come, at most: 3 for a job to submit, 2 for a queued job,
1 for a job a worker holds. -/
def remaining (p : Packager) : Nat :=
  3 * p.pending.length + 2 * p.queue.length + (inFlight p).length

/-- Every job is in exactly one place, and the delivered jobs are the ones in flight or
resolved. -/
structure Inv (N W : Nat) (p : Packager) : Prop where
  workers_length : p.workers.length = W
  jobs : (p.pending ++ p.queue ++ inFlight p ++ p.resolved).Perm (List.range N)
  deliveries : (p.delivered.map Prod.fst).Perm (inFlight p ++ p.resolved)

/-- Two jobs and one worker, after both jobs have been resolved. -/
def doneTwoJobs : Packager :=
  ⟨1, [], [], [none], [(0, 0), (1, 0)], [0, 1]⟩

end pack

/-! # Theorems -/

namespace encrypt

/-! ## Lemmas on the library model -/

theorem splitChars_ne_nil (sep : Char) (l : List Char) : splitChars sep l ≠ [] := by
  induction l with
  | nil => simp [splitChars]
  | cons c cs ih =>
    unfold splitChars
    split
    · simp
    · split <;> simp

theorem splitChars_no_sep (sep : Char) (a : List Char) (h : sep ∉ a) :
    splitChars sep a = [a] := by
  induction a with
  | nil => simp [splitChars]
  | cons c cs ih =>
    have hc : c ≠ sep := fun e => h (by simp [e])
    have hcs : sep ∉ cs := fun e => h (by simp [e])
    simp [splitChars, hc, ih hcs]

theorem splitChars_append_sep (sep : Char) (a rest : List Char) (h : sep ∉ a) :
    splitChars sep (a ++ sep :: rest) = a :: splitChars sep rest := by
  induction a with
  | nil => simp [splitChars]
  | cons c cs ih =>
    have hc : c ≠ sep := fun e => h (by simp [e])
    have hcs : sep ∉ cs := fun e => h (by simp [e])
    simp [splitChars, hc, ih hcs]

theorem Split_length_pos (s : String) (sep : Char) : 0 < (Split s sep).length := by
  have := splitChars_ne_nil sep s.data
  simp only [Split, List.length_map]
  exact List.length_pos.mpr this

theorem Split_descriptor (region bucket : String) (hr : ':' ∉ region.data)
    (hb : ':' ∉ bucket.data) :
    Split (descriptor region bucket) ':' = ["s3", region, bucket] := by
  have h1 : (descriptor region bucket).data
      = ['s', '3'] ++ ':' :: (region.data ++ ':' :: bucket.data) := by
    simp [descriptor, String.data_append]
  have h0 : ':' ∉ ['s', '3'] := by decide
  simp only [Split, h1]
  rw [splitChars_append_sep _ _ _ h0, splitChars_append_sep _ _ _ hr,
    splitChars_no_sep _ _ hb]
  rfl

theorem lookupFile_removeFile (files : List (String × Bytes)) (path : String) :
    lookupFile (removeFile files path) path = none := by
  simp [lookupFile, removeFile, List.find?_eq_none]

theorem StorePublication_eq_storeWithConfig (env : Env) (pub : LcpPublication)
    (inputPath storagePath : String) (w : World) (region bucket : String)
    (hmode : pub.StorageMode = env.Storage_s3)
    (h1 : (Split storagePath ':')[1]? = some region)
    (h2 : (Split storagePath ':')[2]? = some bucket) :
    StorePublication env pub inputPath storagePath w
      = storeWithConfig env pub inputPath (configOf region bucket) w := by
  simp only [StorePublication, hmode, ne_eq, not_true_eq_false, if_false, h1, h2]
  rfl

/-- Once the backend is built and the file is open, the result is the one of `Add`, and
the world is the one `cleanupTempFile` leaves after the upload. -/
theorem storeWithConfig_opened (env : Env) (pub : LcpPublication) (inputPath : String)
    (conf : S3Config) (w : World) (data : Bytes)
    (hs3 : env.s3Err conf = none)
    (hfile : lookupFile w.files inputPath = some data)
    (hopen : env.openErr inputPath = none) :
    storeWithConfig env pub inputPath conf w
      = (.returned (env.addErr conf pub.ContentID data),
          cleanupTempFile env (some ⟨inputPath, data⟩)
            (Store.Add env ⟨conf⟩ pub.ContentID ⟨inputPath, data⟩
              ((w.log (.s3Init conf)).log (.osOpen inputPath))).2) := by
  have hfile2 : lookupFile (w.log (.s3Init conf)).files inputPath = some data := hfile
  simp only [storeWithConfig, storageS3, hs3, osOpen, hfile2, hopen]
  cases hadd : env.addErr conf pub.ContentID data <;> simp [Store.Add, hadd]

/-! ## Claims on `StorePublication` -/

/-- C2: for a publication whose storage mode is not the S3 mode, whatever the input path
and the descriptor are, `StorePublication` returns the mode-mismatch error and leaves the
world (disk, object stores, trace of calls) as it was: nothing is parsed, built, opened or
uploaded. -/
theorem StorePublication_mode_mismatch (env : Env) (pub : LcpPublication)
    (inputPath storagePath : String) (w : World)
    (hmode : pub.StorageMode ≠ env.Storage_s3) :
    StorePublication env pub inputPath storagePath w
      = (.returned (some ⟨"only S3 storage is processed in StorePublication"⟩), w) := by
  simp [StorePublication, hmode]

theorem StorePublication_mode_mismatch_witness :
    pubFs.StorageMode ≠ envOk.Storage_s3 ∧
    StorePublication envOk pubFs "/no/such/file" "s3:eu-west-1" worldOneFile
      = (.returned (some ⟨"only S3 storage is processed in StorePublication"⟩), worldOneFile) :=
  ⟨by decide,
    StorePublication_mode_mismatch envOk pubFs "/no/such/file" "s3:eu-west-1" worldOneFile
      (by decide)⟩

/-- C3 (evaluation at the failing input): for an S3 publication and the descriptor
`"s3:eu-west-1"`, which has two fields, `StorePublication` does not return an error: it
panics at line 28 with index 2 out of range for length 2, before any call is made. -/
theorem StorePublication_two_fields_panics (env : Env) (contentID inputPath : String)
    (w : World) :
    StorePublication env ⟨contentID, env.Storage_s3⟩ inputPath "s3:eu-west-1" w
      = (.panicked 2 2, w) := by
  have hs : Split "s3:eu-west-1" ':' = ["s3", "eu-west-1"] := by decide
  simp [StorePublication, hs]

/-- C4: for an S3 publication and a descriptor `"s3:<region>:<bucket>"`, when the backend
is built and the input file is opened, `StorePublication` returns exactly what `store.Add`
returned (`nil` or the same error), whatever closing and removing the file do. -/
theorem StorePublication_returns_add_result (env : Env) (pub : LcpPublication)
    (inputPath region bucket : String) (w : World) (data : Bytes)
    (hmode : pub.StorageMode = env.Storage_s3)
    (hr : ':' ∉ region.data) (hb : ':' ∉ bucket.data)
    (hs3 : env.s3Err (configOf region bucket) = none)
    (hfile : lookupFile w.files inputPath = some data)
    (hopen : env.openErr inputPath = none) :
    (StorePublication env pub inputPath (descriptor region bucket) w).1
      = .returned (env.addErr (configOf region bucket) pub.ContentID data) := by
  have hsplit := Split_descriptor region bucket hr hb
  rw [StorePublication_eq_storeWithConfig env pub inputPath _ w region bucket hmode
    (by simp [hsplit]) (by simp [hsplit]),
    storeWithConfig_opened env pub inputPath _ w data hs3 hfile hopen]

theorem StorePublication_returns_add_result_witness :
    envUploadFails.closeErr "/tmp/abc123.tmp" ≠ none ∧
    envUploadFails.removeErr "/tmp/abc123.tmp" ≠ none ∧
    (StorePublication envUploadFails pubS3 "/tmp/abc123.tmp"
        (descriptor "eu-west-1" "my-bucket") worldOneFile).1
      = .returned (some ⟨"RequestError: send request failed"⟩) :=
  ⟨by decide, by decide,
    StorePublication_returns_add_result envUploadFails pubS3 "/tmp/abc123.tmp"
      "eu-west-1" "my-bucket" worldOneFile [80, 75, 3, 4]
      (by decide) (by decide) (by decide) (by decide) (by decide) (by decide)⟩

/-- C5, as amended: for an S3 publication with content id `k`, a descriptor
`"s3:<region>:<bucket>"` and a readable input file with contents `X`, when the backend is
built and the upload succeeds, `StorePublication` returns `nil`, its calls are the
construction of the backend, the opening of the file, one `store.Add` with key `k` and
contents `X`, the closing and the removal of the file, and the store maps `k` to `X`,
whatever closing and removing the file do; the input file is absent from the disk when
`os.Remove` succeeds. -/
theorem StorePublication_success (env : Env) (pub : LcpPublication)
    (inputPath region bucket : String) (w : World) (X : Bytes)
    (hmode : pub.StorageMode = env.Storage_s3)
    (hr : ':' ∉ region.data) (hb : ':' ∉ bucket.data)
    (hs3 : env.s3Err (configOf region bucket) = none)
    (hfile : lookupFile w.files inputPath = some X)
    (hopen : env.openErr inputPath = none)
    (hadd : env.addErr (configOf region bucket) pub.ContentID X = none) :
    (StorePublication env pub inputPath (descriptor region bucket) w).1 = .returned none ∧
    (StorePublication env pub inputPath (descriptor region bucket) w).2.trace
      = w.trace ++ [.s3Init (configOf region bucket), .osOpen inputPath,
          .storeAdd (configOf region bucket) pub.ContentID X,
          .fileClose inputPath, .osRemove inputPath] ∧
    lookupObject (StorePublication env pub inputPath (descriptor region bucket) w).2.objects
      (configOf region bucket) pub.ContentID = some X ∧
    (env.removeErr inputPath = none →
      lookupFile (StorePublication env pub inputPath (descriptor region bucket) w).2.files
        inputPath = none) := by
  have hsplit := Split_descriptor region bucket hr hb
  rw [StorePublication_eq_storeWithConfig env pub inputPath _ w region bucket hmode
    (by simp [hsplit]) (by simp [hsplit]),
    storeWithConfig_opened env pub inputPath _ w X hs3 hfile hopen]
  refine ⟨by simp [hadd], ?_, ?_, ?_⟩
  · cases hrm : env.removeErr inputPath <;>
    simp [cleanupTempFile, osRemove, hrm, File.Close, Store.Add, hadd, World.log]
  · cases hrm : env.removeErr inputPath <;>
    simp [cleanupTempFile, osRemove, hrm, File.Close, Store.Add, hadd, World.log,
      lookupObject]
  · intro hrm
    simp [cleanupTempFile, osRemove, hrm, File.Close, Store.Add, hadd, World.log,
      lookupFile_removeFile]

theorem StorePublication_success_witness :
    ((StorePublication envOk pubS3 "/tmp/abc123.tmp" (descriptor "eu-west-1" "my-bucket")
        worldOneFile).1 = .returned none ∧
      (StorePublication envOk pubS3 "/tmp/abc123.tmp" (descriptor "eu-west-1" "my-bucket")
          worldOneFile).2.trace
        = worldOneFile.trace ++ [.s3Init (configOf "eu-west-1" "my-bucket"),
            .osOpen "/tmp/abc123.tmp",
            .storeAdd (configOf "eu-west-1" "my-bucket") pubS3.ContentID [80, 75, 3, 4],
            .fileClose "/tmp/abc123.tmp", .osRemove "/tmp/abc123.tmp"] ∧
      lookupObject (StorePublication envOk pubS3 "/tmp/abc123.tmp"
          (descriptor "eu-west-1" "my-bucket") worldOneFile).2.objects
        (configOf "eu-west-1" "my-bucket") pubS3.ContentID = some [80, 75, 3, 4] ∧
      lookupFile (StorePublication envOk pubS3 "/tmp/abc123.tmp"
          (descriptor "eu-west-1" "my-bucket") worldOneFile).2.files "/tmp/abc123.tmp"
        = none) ∧
    (envCleanupFails.removeErr "/tmp/abc123.tmp" ≠ none ∧
      (StorePublication envCleanupFails pubS3 "/tmp/abc123.tmp"
          (descriptor "eu-west-1" "my-bucket") worldOneFile).1 = .returned none ∧
      (StorePublication envCleanupFails pubS3 "/tmp/abc123.tmp"
          (descriptor "eu-west-1" "my-bucket") worldOneFile).2.trace
        = worldOneFile.trace ++ [.s3Init (configOf "eu-west-1" "my-bucket"),
            .osOpen "/tmp/abc123.tmp",
            .storeAdd (configOf "eu-west-1" "my-bucket") pubS3.ContentID [80, 75, 3, 4],
            .fileClose "/tmp/abc123.tmp", .osRemove "/tmp/abc123.tmp"] ∧
      lookupObject (StorePublication envCleanupFails pubS3 "/tmp/abc123.tmp"
          (descriptor "eu-west-1" "my-bucket") worldOneFile).2.objects
        (configOf "eu-west-1" "my-bucket") pubS3.ContentID = some [80, 75, 3, 4]) :=
  have ok := StorePublication_success envOk pubS3 "/tmp/abc123.tmp" "eu-west-1" "my-bucket"
    worldOneFile [80, 75, 3, 4]
    (by decide) (by decide) (by decide) (by decide) (by decide) (by decide) (by decide)
  have failing := StorePublication_success envCleanupFails pubS3 "/tmp/abc123.tmp"
    "eu-west-1" "my-bucket" worldOneFile [80, 75, 3, 4]
    (by decide) (by decide) (by decide) (by decide) (by decide) (by decide) (by decide)
  ⟨⟨ok.1, ok.2.1, ok.2.2.1, ok.2.2.2 (by decide)⟩,
    by decide, failing.1, failing.2.1, failing.2.2.1⟩

/-- C5 as stated fails: with the descriptor `"s3:eu-west-1:my-bucket"`, content id `abc123`
and a readable file, the backend is built, the upload succeeds and `nil` is returned, yet
`os.Remove` fails, its error is dropped, and the input file is still on the disk. -/
theorem StorePublication_success_file_remains :
    pubS3.StorageMode = envCleanupFails.Storage_s3 ∧
    descriptor "eu-west-1" "my-bucket" = "s3:eu-west-1:my-bucket" ∧
    lookupFile worldOneFile.files "/tmp/abc123.tmp" = some [80, 75, 3, 4] ∧
    envCleanupFails.openErr "/tmp/abc123.tmp" = none ∧
    envCleanupFails.s3Err (configOf "eu-west-1" "my-bucket") = none ∧
    envCleanupFails.addErr (configOf "eu-west-1" "my-bucket") "abc123" [80, 75, 3, 4] = none ∧
    (StorePublication envCleanupFails pubS3 "/tmp/abc123.tmp" "s3:eu-west-1:my-bucket"
        worldOneFile).1 = .returned none ∧
    lookupFile (StorePublication envCleanupFails pubS3 "/tmp/abc123.tmp"
        "s3:eu-west-1:my-bucket" worldOneFile).2.files "/tmp/abc123.tmp"
      = some [80, 75, 3, 4] := by
  decide

/-- C1, as amended: once `StorePublication` has returned after opening the input file
(with `nil` or with the error of the upload), `cleanupTempFile` has closed the file and
called `os.Remove` on it as its last two calls, and the file is deleted from the disk
whenever that `os.Remove` succeeds. -/
theorem StorePublication_deletes_opened_file (env : Env) (pub : LcpPublication)
    (inputPath storagePath region bucket : String) (w : World) (data : Bytes)
    (hmode : pub.StorageMode = env.Storage_s3)
    (h1 : (Split storagePath ':')[1]? = some region)
    (h2 : (Split storagePath ':')[2]? = some bucket)
    (hs3 : env.s3Err (configOf region bucket) = none)
    (hfile : lookupFile w.files inputPath = some data)
    (hopen : env.openErr inputPath = none) :
    (StorePublication env pub inputPath storagePath w).1
      = .returned (env.addErr (configOf region bucket) pub.ContentID data) ∧
    (∃ pre, (StorePublication env pub inputPath storagePath w).2.trace
      = pre ++ [.fileClose inputPath, .osRemove inputPath]) ∧
    (env.removeErr inputPath = none →
      lookupFile (StorePublication env pub inputPath storagePath w).2.files inputPath
        = none) := by
  rw [StorePublication_eq_storeWithConfig env pub inputPath _ w region bucket hmode h1 h2,
    storeWithConfig_opened env pub inputPath _ w data hs3 hfile hopen]
  refine ⟨rfl, ?_, ?_⟩
  · refine ⟨w.trace ++ [.s3Init (configOf region bucket), .osOpen inputPath,
      .storeAdd (configOf region bucket) pub.ContentID data], ?_⟩
    cases hadd : env.addErr (configOf region bucket) pub.ContentID data <;>
    cases hrm : env.removeErr inputPath <;>
    simp [cleanupTempFile, osRemove, hrm, File.Close, Store.Add, hadd, World.log]
  · intro hrm
    cases hadd : env.addErr (configOf region bucket) pub.ContentID data <;>
    simp [cleanupTempFile, osRemove, hrm, File.Close, Store.Add, hadd, World.log,
      lookupFile_removeFile]

theorem StorePublication_deletes_opened_file_witness :
    (StorePublication envOk pubS3 "/tmp/abc123.tmp" "s3:eu-west-1:my-bucket"
        worldOneFile).1
      = .returned (envOk.addErr (configOf "eu-west-1" "my-bucket") pubS3.ContentID
          [80, 75, 3, 4]) ∧
    (∃ pre, (StorePublication envOk pubS3 "/tmp/abc123.tmp" "s3:eu-west-1:my-bucket"
        worldOneFile).2.trace
      = pre ++ [.fileClose "/tmp/abc123.tmp", .osRemove "/tmp/abc123.tmp"]) ∧
    (envOk.removeErr "/tmp/abc123.tmp" = none →
      lookupFile (StorePublication envOk pubS3 "/tmp/abc123.tmp" "s3:eu-west-1:my-bucket"
        worldOneFile).2.files "/tmp/abc123.tmp" = none) :=
  StorePublication_deletes_opened_file envOk pubS3 "/tmp/abc123.tmp"
    "s3:eu-west-1:my-bucket" "eu-west-1" "my-bucket" worldOneFile [80, 75, 3, 4]
    (by decide) (by decide) (by decide) (by decide) (by decide) (by decide)

/-- C1 as stated fails: `StorePublication` returns the mode-mismatch error for a
publication that is not in S3 mode, and the input file is still on the disk. -/
theorem StorePublication_mode_mismatch_keeps_file :
    lookupFile worldOneFile.files "/tmp/abc123.tmp" = some [80, 75, 3, 4] ∧
    (StorePublication envOk pubFs "/tmp/abc123.tmp" "s3:eu-west-1:my-bucket"
        worldOneFile).1
      = .returned (some ⟨"only S3 storage is processed in StorePublication"⟩) ∧
    lookupFile (StorePublication envOk pubFs "/tmp/abc123.tmp" "s3:eu-west-1:my-bucket"
        worldOneFile).2.files "/tmp/abc123.tmp" = some [80, 75, 3, 4] := by
  decide

/-- The first call of `storeWithConfig` builds the backend from the configuration it is
given, and no later call builds a backend. -/
theorem storeWithConfig_trace (env : Env) (pub : LcpPublication) (inputPath : String)
    (conf : S3Config) (w : World) :
    ∃ rest, (storeWithConfig env pub inputPath conf w).2.trace
        = w.trace ++ Event.s3Init conf :: rest ∧ ∀ c, Event.s3Init c ∉ rest := by
  cases hs3 : env.s3Err conf with
  | some e => exact ⟨[], by simp [storeWithConfig, storageS3, hs3, World.log]⟩
  | none =>
    cases hfile : lookupFile w.files inputPath with
    | none =>
      have hfile2 : lookupFile (w.log (.s3Init conf)).files inputPath = none := hfile
      exact ⟨[.osOpen inputPath],
        by simp [storeWithConfig, storageS3, hs3, osOpen, hfile, hfile2, World.log]⟩
    | some data =>
      have hfile2 : lookupFile (w.log (.s3Init conf)).files inputPath = some data := hfile
      cases hopen : env.openErr inputPath with
      | some e =>
        exact ⟨[.osOpen inputPath],
          by simp [storeWithConfig, storageS3, hs3, osOpen, hfile, hfile2, hopen, World.log]⟩
      | none =>
        refine ⟨[.osOpen inputPath, .storeAdd conf pub.ContentID data,
          .fileClose inputPath, .osRemove inputPath], ?_, by simp⟩
        rw [storeWithConfig_opened env pub inputPath conf w data hs3 hfile hopen]
        cases hadd : env.addErr conf pub.ContentID data <;>
        cases hrm : env.removeErr inputPath <;>
        simp [cleanupTempFile, osRemove, hrm, File.Close, Store.Add, hadd, World.log]

/-- C10: for an S3 publication and a descriptor with at least three fields, the first call
of `StorePublication` builds the S3 backend from the configuration whose `Region` is the
second field and whose `Bucket` is the third, every other field being at its zero value,
and no other backend is built; the first field and the fields after the third are not
read, so a descriptor with the same second and third fields gives the same run. -/
theorem StorePublication_backend_config (env : Env) (pub : LcpPublication)
    (inputPath storagePath : String) (w : World)
    (hmode : pub.StorageMode = env.Storage_s3)
    (hlen : 3 ≤ (Split storagePath ':').length) :
    (∃ rest, (StorePublication env pub inputPath storagePath w).2.trace
        = w.trace ++ Event.s3Init ⟨"", "", "", "", (Split storagePath ':').getD 2 "",
            (Split storagePath ':').getD 1 "", false, false⟩ :: rest
        ∧ ∀ c, Event.s3Init c ∉ rest) ∧
    (∀ other : String, 3 ≤ (Split other ':').length →
      (Split other ':').getD 1 "" = (Split storagePath ':').getD 1 "" →
      (Split other ':').getD 2 "" = (Split storagePath ':').getD 2 "" →
      StorePublication env pub inputPath other w
        = StorePublication env pub inputPath storagePath w) := by
  have key : ∀ d : String, 3 ≤ (Split d ':').length →
      StorePublication env pub inputPath d w
        = storeWithConfig env pub inputPath
            (configOf ((Split d ':').getD 1 "") ((Split d ':').getD 2 "")) w := by
    intro d hd
    have e1 : (Split d ':')[1]? = some ((Split d ':').getD 1 "") := by
      rw [List.getD_eq_getElem?_getD, List.getElem?_eq_getElem (by omega)]
      rfl
    have e2 : (Split d ':')[2]? = some ((Split d ':').getD 2 "") := by
      rw [List.getD_eq_getElem?_getD, List.getElem?_eq_getElem (by omega)]
      rfl
    exact StorePublication_eq_storeWithConfig env pub inputPath d w _ _ hmode e1 e2
  refine ⟨?_, ?_⟩
  · rw [key storagePath hlen]
    exact storeWithConfig_trace env pub inputPath _ w
  · intro other ho h1 h2
    rw [key other ho, key storagePath hlen, h1, h2]

theorem StorePublication_backend_config_witness :
    (∃ rest, (StorePublication envOk pubS3 "/tmp/abc123.tmp" "gs:eu-west-1:my-bucket:x"
          worldOneFile).2.trace
        = worldOneFile.trace ++ Event.s3Init ⟨"", "", "", "",
            (Split "gs:eu-west-1:my-bucket:x" ':').getD 2 "",
            (Split "gs:eu-west-1:my-bucket:x" ':').getD 1 "", false, false⟩ :: rest
        ∧ ∀ c, Event.s3Init c ∉ rest) ∧
    (∀ other : String, 3 ≤ (Split other ':').length →
      (Split other ':').getD 1 "" = (Split "gs:eu-west-1:my-bucket:x" ':').getD 1 "" →
      (Split other ':').getD 2 "" = (Split "gs:eu-west-1:my-bucket:x" ':').getD 2 "" →
      StorePublication envOk pubS3 "/tmp/abc123.tmp" other worldOneFile
        = StorePublication envOk pubS3 "/tmp/abc123.tmp" "gs:eu-west-1:my-bucket:x"
            worldOneFile) :=
  StorePublication_backend_config envOk pubS3 "/tmp/abc123.tmp" "gs:eu-west-1:my-bucket:x"
    worldOneFile (by decide) (by decide)

end encrypt

namespace lcpserver

open encrypt (Error S3Config)

/-! ## Lemmas on the stages of `main` -/


theorem quiet_append {s t : List Call} (hs : Quiet s) (ht : Quiet t) : Quiet (s ++ t) := by
  unfold Quiet at *
  simp only [List.mem_append, not_or]
  exact ⟨⟨hs.1, ht.1⟩, ⟨hs.2, ht.2⟩⟩

theorem loadSettings_quiet (x : Externals) : Quiet (loadSettings x).2 := by
  unfold loadSettings Quiet
  dsimp only
  generalize (if x.configEnv ≠ "" then x.configEnv else "config.yaml") = configFile
  rcases x.readConfig configFile with e | cfg
  · simp
  · dsimp only
    generalize (if cfg.LcpServer.Database ≠ "" then cfg.LcpServer.Database
          else "sqlite3://file:lcp.sqlite?cache=shared&mode=rwc") = dbURI
    split_ifs
    · simp
    · simp
    · simp
    · rcases x.loadX509KeyPair cfg.Certificate.Cert cfg.Certificate.PrivateKey with _ | e
      · dsimp only
        rcases x.setupDB dbURI with _ | e
        · dsimp only
          rcases x.automigrate with _ | e <;> simp
        · simp
      · simp

theorem storageBackend_quiet (x : Externals) (cfg : Configuration) :
    Quiet (storageBackend x cfg).2 := by
  unfold storageBackend Quiet
  dsimp only
  split_ifs <;> (try split) <;> simp

theorem startServer_quiet (x : Externals) (cfg : Configuration) (b : Backend) :
    Quiet (startServer x cfg b).2 := by
  unfold startServer Quiet
  dsimp only
  rcases x.stat cfg.LcpServer.AuthFile with _ | e
  · dsimp only
    split <;> simp
  · simp


/-- The three ways a run of `main` can go: a panic during start-up, waiting for ever for
a signal that never comes, or the reception of the signal followed by the shutdown with
a timeout of 15 seconds and the exit with status 0. -/
theorem main_cases (x : Externals) :
    ((∃ msg, (main x).1 = .panicked msg) ∧ Quiet (main x).2) ∨
    ((main x).1 = .blocked ∧ Quiet (main x).2) ∨
    ((main x).1 = .exited 0 ∧ ∃ pre, Quiet pre ∧ (main x).2
      = pre ++ [.receiveSignal, .contextWithTimeout (15 * 1000000000),
          .shutdown (15 * 1000000000), .exit 0]) := by
  have q1 := loadSettings_quiet x
  unfold main
  generalize loadSettings x = ls at q1 ⊢
  rcases ls with ⟨r1, t1⟩
  rcases r1 with msg | ⟨cfg, dbURI⟩
  · exact Or.inl ⟨⟨msg, rfl⟩, q1⟩
  · have q2 := storageBackend_quiet x cfg
    dsimp only
    generalize storageBackend x cfg = sb at q2 ⊢
    rcases sb with ⟨b, t2⟩
    have q3 := startServer_quiet x cfg b
    dsimp only
    generalize startServer x cfg b = ss at q3 ⊢
    rcases ss with ⟨r3, t3⟩
    have q123 : Quiet (t1 ++ t2 ++ t3) := quiet_append (quiet_append q1 q2) q3
    rcases r3 with msg | u
    · exact Or.inl ⟨⟨msg, rfl⟩, q123⟩
    · cases hi : x.interrupt with
      | false =>
        refine Or.inr (Or.inl ?_)
        simp only [awaitShutdown, hi]
        refine ⟨by simp, quiet_append q123 ?_⟩
        simp [Quiet]
      | true =>
        refine Or.inr (Or.inr ?_)
        simp only [awaitShutdown, hi]
        refine ⟨by simp, t1 ++ t2 ++ t3 ++ [.signalNotify], quiet_append q123 ?_, ?_⟩
        · simp [Quiet]
        · simp [Second]


theorem storageBackend_empty_directory (x : Externals) (cfg : Configuration)
    (hmode : cfg.Storage.Mode ≠ "s3") (hdir : cfg.Storage.FileSystem.Directory = "") :
    storageBackend x cfg
      = (.fileSystem "files" (cfg.LcpServer.PublicBaseUrl ++ "/files"),
          [.mkdirAll "files",
            .newFileSystem "files" (cfg.LcpServer.PublicBaseUrl ++ "/files")]) := by
  simp [storageBackend, hmode, hdir]

theorem startServer_head (x : Externals) (cfg : Configuration) (b : Backend) :
    ∃ rest, (startServer x cfg b).2 = Call.newPackager b 4 :: rest := by
  unfold startServer
  dsimp only
  rcases x.stat cfg.LcpServer.AuthFile with _ | e
  · dsimp only
    split <;> exact ⟨_, rfl⟩
  · exact ⟨_, rfl⟩

/-- When `startServer` does not panic, it has constructed the Packager on the backend it
was given, with 4 workers, and has later fed it from `server.Src`. -/
theorem startServer_builds_and_feeds (x : Externals) (cfg : Configuration) (b : Backend) :
    (∃ msg, (startServer x cfg b).1 = .error msg) ∨
    ∃ mid post, (startServer x cfg b).2
      = Call.newPackager b 4 :: (mid ++ Call.sourceFeed :: post) := by
  unfold startServer
  dsimp only
  rcases x.stat cfg.LcpServer.AuthFile with _ | e
  · dsimp only
    split
    · exact Or.inl ⟨_, rfl⟩
    · exact Or.inr ⟨_, _, by
        simp only [List.cons.injEq, true_and]
        exact (List.append_assoc [_, _, _, _, _] [Call.sourceFeed] [_])⟩
  · exact Or.inl ⟨_, rfl⟩

/-- Every run of `main` that does not panic constructs a Packager with 4 workers, on the
backend of lines 102-118, and afterwards feeds it from `server.Src`. -/
theorem main_builds_and_feeds (x : Externals) (h : ∀ msg, (main x).1 ≠ .panicked msg) :
    ∃ b pre mid post, (main x).2
      = pre ++ Call.newPackager b 4 :: (mid ++ Call.sourceFeed :: post) := by
  unfold main at h ⊢
  generalize loadSettings x = ls at h ⊢
  rcases ls with ⟨r1, t1⟩
  rcases r1 with msg | ⟨cfg, dbURI⟩
  · exact absurd rfl (h msg)
  · dsimp only at h ⊢
    generalize storageBackend x cfg = sb at h ⊢
    rcases sb with ⟨b, t2⟩
    dsimp only at h ⊢
    have hs := startServer_builds_and_feeds x cfg b
    generalize startServer x cfg b = ss at h hs ⊢
    rcases ss with ⟨r3, t3⟩
    rcases r3 with msg | u
    · exact absurd rfl (h msg)
    · rcases hs with ⟨msg, hmsg⟩ | ⟨mid, post, hmid⟩
      · cases hmsg
      · dsimp only at hmid ⊢
        subst hmid
        exact ⟨b, t1 ++ t2, mid, post ++ (awaitShutdown x).2, by simp⟩

/-! ## Claims on `main` -/

/-- C6, as amended: a start-up configuration in file-system mode (any mode other than
`"s3"`) with an empty directory path is not fatal.  Once the configuration is loaded,
`main` takes `"files"` as the directory, creates it, builds the file-system backend on it
and constructs the Packager with that backend and 4 workers; when checking the passwords
file and creating `config.js` raise no error, it goes on to start the listener and does
not panic. -/
theorem main_defaults_empty_directory (x : Externals) (cfg : Configuration) (dbURI : String)
    (hload : (loadSettings x).1 = .ok (cfg, dbURI))
    (hmode : cfg.Storage.Mode ≠ "s3")
    (hdir : cfg.Storage.FileSystem.Directory = "") :
    (∃ rest, (main x).2 = (loadSettings x).2 ++
        [.mkdirAll "files",
          .newFileSystem "files" (cfg.LcpServer.PublicBaseUrl ++ "/files"),
          .newPackager (.fileSystem "files" (cfg.LcpServer.PublicBaseUrl ++ "/files")) 4]
        ++ rest) ∧
    (x.stat cfg.LcpServer.AuthFile = none → x.create (configJsPath x cfg) = none →
      Call.goListenAndServe (":" ++ toString cfg.LcpServer.Port) ∈ (main x).2 ∧
      ∀ msg, (main x).1 ≠ .panicked msg) := by
  unfold main
  generalize loadSettings x = ls at hload ⊢
  rcases ls with ⟨r1, t1⟩
  dsimp only at hload
  subst hload
  dsimp only
  rw [storageBackend_empty_directory x cfg hmode hdir]
  dsimp only
  constructor
  · obtain ⟨rest, hrest⟩ := startServer_head x cfg
      (.fileSystem "files" (cfg.LcpServer.PublicBaseUrl ++ "/files"))
    generalize startServer x cfg
      (.fileSystem "files" (cfg.LcpServer.PublicBaseUrl ++ "/files")) = ss at hrest ⊢
    rcases ss with ⟨r3, t3⟩
    dsimp only at hrest
    subst hrest
    rcases r3 with msg | u
    · exact ⟨rest, by simp⟩
    · exact ⟨rest ++ (awaitShutdown x).2, by simp⟩
  · intro hstat hcreate
    simp only [configJsPath] at hcreate
    simp only [startServer, hstat, hcreate]
    constructor
    · simp
    · intro msg
      unfold awaitShutdown
      split <;> simp

theorem main_defaults_empty_directory_witness :
    (∃ rest, (main (externalsFor cfgEmptyDirectory none)).2
      = (loadSettings (externalsFor cfgEmptyDirectory none)).2 ++
        [.mkdirAll "files",
          .newFileSystem "files" (cfgEmptyDirectory.LcpServer.PublicBaseUrl ++ "/files"),
          .newPackager
            (.fileSystem "files" (cfgEmptyDirectory.LcpServer.PublicBaseUrl ++ "/files")) 4]
        ++ rest) ∧
    ((externalsFor cfgEmptyDirectory none).stat cfgEmptyDirectory.LcpServer.AuthFile = none →
      (externalsFor cfgEmptyDirectory none).create
          (configJsPath (externalsFor cfgEmptyDirectory none) cfgEmptyDirectory) = none →
      Call.goListenAndServe (":" ++ toString cfgEmptyDirectory.LcpServer.Port)
          ∈ (main (externalsFor cfgEmptyDirectory none)).2 ∧
      ∀ msg, (main (externalsFor cfgEmptyDirectory none)).1 ≠ .panicked msg) :=
  main_defaults_empty_directory (externalsFor cfgEmptyDirectory none) cfgEmptyDirectory
    "sqlite3://file:lcp.sqlite?cache=shared&mode=rwc" rfl (by decide) (by decide)

/-- C6 as stated fails.  With an empty directory in file-system mode, `main` builds the
Packager on the directory `"files"` and starts the listener; with mode `"s3"` and no
bucket, so that `filestor.S3` returns an error, `main` builds the Packager on the value
returned with that error and starts the listener.  Neither run panics. -/
theorem main_continues_on_malformed_storage :
    ((main (externalsFor cfgEmptyDirectory none)).1 = .exited 0 ∧
      Call.newPackager (.fileSystem "files" "http://localhost:8989/files") 4
        ∈ (main (externalsFor cfgEmptyDirectory none)).2 ∧
      Call.goListenAndServe ":8989" ∈ (main (externalsFor cfgEmptyDirectory none)).2) ∧
    ((externalsFor cfgS3NoBucket none).filestorS3
        ⟨"id", "secret", "", "", "", "eu-west-1", false, false⟩ = some ⟨"missing bucket"⟩ ∧
      (main (externalsFor cfgS3NoBucket none)).1 = .exited 0 ∧
      Call.newPackager (.s3Failed ⟨"id", "secret", "", "", "", "eu-west-1", false, false⟩
          ⟨"missing bucket"⟩) 4 ∈ (main (externalsFor cfgS3NoBucket none)).2 ∧
      Call.goListenAndServe ":8989" ∈ (main (externalsFor cfgS3NoBucket none)).2) := by
  decide

/-- C7, as amended: in every run of `main` that receives the interrupt signal, the calls
from the signal to the end of the process are the creation of the context, the shutdown
of the network listener and the exit; `main` never calls `Stop` on the job Source. -/
theorem main_never_stops_source (x : Externals) (h : Call.receiveSignal ∈ (main x).2) :
    Call.sourceStop ∉ (main x).2 ∧
    ∃ pre, Call.receiveSignal ∉ pre ∧ (main x).2
      = pre ++ [.receiveSignal, .contextWithTimeout (15 * Second), .shutdown (15 * Second),
          .exit 0] := by
  rcases main_cases x with ⟨_, q⟩ | ⟨_, q⟩ | ⟨_, pre, q, ht⟩
  · exact absurd h q.1
  · exact absurd h q.1
  · refine ⟨?_, pre, q.1, by rw [ht]; simp [Second]⟩
    rw [ht]
    have := q.2
    simp [this]

theorem main_never_stops_source_witness :
    Call.sourceStop ∉ (main (externalsFor cfgS3NoBucket none)).2 ∧
    ∃ pre, Call.receiveSignal ∉ pre ∧ (main (externalsFor cfgS3NoBucket none)).2
      = pre ++ [.receiveSignal, .contextWithTimeout (15 * Second), .shutdown (15 * Second),
          .exit 0] :=
  main_never_stops_source (externalsFor cfgS3NoBucket none) (by decide)

/-- C7 as stated fails: a run of `main` receives the interrupt signal, shuts the listener
down and exits, and its trace holds no call of `Stop` on the job Source. -/
theorem main_signal_without_source_stop :
    Call.receiveSignal ∈ (main (externalsFor cfgEmptyDirectory none)).2 ∧
    Call.exit 0 ∈ (main (externalsFor cfgEmptyDirectory none)).2 ∧
    Call.sourceStop ∉ (main (externalsFor cfgEmptyDirectory none)).2 := by
  decide

/-- C8: in every run of `main` that receives the interrupt signal, `server.Shutdown` is
called with a context whose timeout is 15 seconds, the next call is `os.Exit(0)`, the
process ends with status 0, and the run is the same whatever `Shutdown` returns. -/
theorem main_shutdown_then_exit_zero (x : Externals) (h : Call.receiveSignal ∈ (main x).2) :
    (main x).1 = .exited 0 ∧
    (∃ pre, (main x).2
      = pre ++ [.receiveSignal, .contextWithTimeout (15 * Second), .shutdown (15 * Second),
          .exit 0]) ∧
    Second = 1000000000 ∧
    ∀ result : Option Error, main { x with shutdown := result } = main x := by
  refine ⟨?_, ?_, rfl, fun _ => rfl⟩
  · rcases main_cases x with ⟨_, q⟩ | ⟨_, q⟩ | ⟨he, _⟩
    · exact absurd h q.1
    · exact absurd h q.1
    · exact he
  · rcases main_cases x with ⟨_, q⟩ | ⟨_, q⟩ | ⟨_, pre, _, ht⟩
    · exact absurd h q.1
    · exact absurd h q.1
    · exact ⟨pre, by rw [ht]; simp [Second]⟩

theorem main_shutdown_then_exit_zero_witness :
    (main (externalsFor cfgEmptyDirectory (some ⟨"context deadline exceeded"⟩))).1
      = .exited 0 ∧
    (∃ pre, (main (externalsFor cfgEmptyDirectory (some ⟨"context deadline exceeded"⟩))).2
      = pre ++ [.receiveSignal, .contextWithTimeout (15 * Second), .shutdown (15 * Second),
          .exit 0]) ∧
    Second = 1000000000 ∧
    ∀ result : Option Error,
      main { externalsFor cfgEmptyDirectory (some ⟨"context deadline exceeded"⟩) with
        shutdown := result }
      = main (externalsFor cfgEmptyDirectory (some ⟨"context deadline exceeded"⟩)) :=
  main_shutdown_then_exit_zero
    (externalsFor cfgEmptyDirectory (some ⟨"context deadline exceeded"⟩)) (by decide)

end lcpserver

namespace pack

/-! ## Lemmas on the Packager -/

theorem inFlight_set_none (l : List (Option Nat)) (i : Nat) (j : Nat)
    (h : l[i]? = some (some j)) :
    (l.filterMap id).Perm (j :: (l.set i none).filterMap id) := by
  induction l generalizing i with
  | nil => simp at h
  | cons a l ih =>
    cases i with
    | zero =>
      simp at h
      subst h
      simp
    | succ i =>
      simp at h
      cases a with
      | none => simpa using ih i h
      | some b =>
        simp only [List.set_cons_succ, List.filterMap_cons, id_eq]
        exact ((ih i h).cons b).trans (List.Perm.swap j b _)

theorem inFlight_set_some (l : List (Option Nat)) (i : Nat) (j : Nat)
    (h : l[i]? = some none) :
    ((l.set i (some j)).filterMap id).Perm (j :: l.filterMap id) := by
  induction l generalizing i with
  | nil => simp at h
  | cons a l ih =>
    cases i with
    | zero =>
      simp at h
      subst h
      simp
    | succ i =>
      simp at h
      cases a with
      | none => simpa using ih i h
      | some b =>
        simp only [List.set_cons_succ, List.filterMap_cons, id_eq]
        exact ((ih i h).cons b).trans (List.Perm.swap j b _)

theorem start_inv (N W capacity : Nat) : Inv N W (start N W capacity) := by
  refine ⟨by simp [start], ?_, ?_⟩ <;> simp [start, inFlight]

theorem step_inv {N W : Nat} {a : Action} {p q : Packager} (h : step a p = some q)
    (hi : Inv N W p) : Inv N W q := by
  obtain ⟨hl, hj, hd⟩ := hi
  rw [List.perm_iff_count] at hj hd
  cases a with
  | submit =>
    simp only [step] at h
    split at h
    · simp at h
    · rename_i j rest hp
      split at h
      · simp only [Option.some.injEq] at h
        subst h
        refine ⟨hl, ?_, List.perm_iff_count.mpr hd⟩
        rw [List.perm_iff_count]
        intro a
        have h1 := hj a
        simp only [hp, inFlight, List.count_append, List.count_cons, List.count_nil] at h1 ⊢
        omega
      · simp at h
  | handoff i =>
    simp only [step] at h
    split at h
    · rename_i j rest hp hq hw
      simp only [Option.some.injEq] at h
      subst h
      have hperm := List.perm_iff_count.mp (inFlight_set_some p.workers i j hw)
      refine ⟨by simpa using hl, ?_, ?_⟩
      · rw [List.perm_iff_count]
        intro a
        have h1 := hj a
        have h2 := hperm a
        simp only [hp, hq, inFlight, List.count_append, List.count_cons, List.count_nil]
          at h1 h2 ⊢
        omega
      · rw [List.perm_iff_count]
        intro a
        have h1 := hd a
        have h2 := hperm a
        simp only [inFlight, List.map_append, List.map_cons, List.map_nil,
          List.count_append, List.count_cons, List.count_nil] at h1 h2 ⊢
        omega
    · simp at h
  | claim i =>
    simp only [step] at h
    split at h
    · rename_i j rest hq hw
      simp only [Option.some.injEq] at h
      subst h
      have hperm := List.perm_iff_count.mp (inFlight_set_some p.workers i j hw)
      refine ⟨by simpa using hl, ?_, ?_⟩
      · rw [List.perm_iff_count]
        intro a
        have h1 := hj a
        have h2 := hperm a
        simp only [hq, inFlight, List.count_append, List.count_cons, List.count_nil]
          at h1 h2 ⊢
        omega
      · rw [List.perm_iff_count]
        intro a
        have h1 := hd a
        have h2 := hperm a
        simp only [inFlight, List.map_append, List.map_cons, List.map_nil,
          List.count_append, List.count_cons, List.count_nil] at h1 h2 ⊢
        omega
    · simp at h
  | finish i =>
    simp only [step] at h
    split at h
    · rename_i j hw
      simp only [Option.some.injEq] at h
      subst h
      have hperm := List.perm_iff_count.mp (inFlight_set_none p.workers i j hw)
      refine ⟨by simpa using hl, ?_, ?_⟩
      · rw [List.perm_iff_count]
        intro a
        have h1 := hj a
        have h2 := hperm a
        simp only [inFlight, List.count_append, List.count_cons, List.count_nil]
          at h1 h2 ⊢
        omega
      · rw [List.perm_iff_count]
        intro a
        have h1 := hd a
        have h2 := hperm a
        simp only [inFlight, List.count_append, List.count_cons, List.count_nil]
          at h1 h2 ⊢
        omega
    · simp at h

theorem step_remaining {a : Action} {p q : Packager} (h : step a p = some q) :
    remaining q < remaining p := by
  cases a with
  | submit =>
    simp only [step] at h
    split at h
    · simp at h
    · rename_i j rest hp
      split at h
      · simp only [Option.some.injEq] at h
        subst h
        simp only [remaining, hp, inFlight, List.length_append, List.length_cons,
          List.length_nil]
        omega
      · simp at h
  | handoff i =>
    simp only [step] at h
    split at h
    · rename_i j rest hp hq hw
      simp only [Option.some.injEq] at h
      subst h
      have hlen := (inFlight_set_some p.workers i j hw).length_eq
      simp only [remaining, hp, hq, inFlight, List.length_cons, List.length_nil] at hlen ⊢
      omega
    · simp at h
  | claim i =>
    simp only [step] at h
    split at h
    · rename_i j rest hq hw
      simp only [Option.some.injEq] at h
      subst h
      have hlen := (inFlight_set_some p.workers i j hw).length_eq
      simp only [remaining, hq, inFlight, List.length_cons, List.length_nil] at hlen ⊢
      omega
    · simp at h
  | finish i =>
    simp only [step] at h
    split at h
    · rename_i j hw
      simp only [Option.some.injEq] at h
      subst h
      have hlen := (inFlight_set_none p.workers i j hw).length_eq
      simp only [remaining, inFlight, List.length_cons, List.length_nil] at hlen ⊢
      omega
    · simp at h

theorem run_inv {N W : Nat} (sched : List Action) (p q : Packager)
    (h : run sched p = some q) (hi : Inv N W p) : Inv N W q := by
  induction sched generalizing p with
  | nil =>
    simp only [run, Option.some.injEq] at h
    exact h ▸ hi
  | cons a rest ih =>
    simp only [run] at h
    cases hs : step a p with
    | none => simp [hs] at h
    | some r =>
      rw [hs] at h
      exact ih r h (step_inv hs hi)

theorem run_remaining (sched : List Action) (p q : Packager) (h : run sched p = some q) :
    sched.length + remaining q ≤ remaining p := by
  induction sched generalizing p with
  | nil =>
    simp only [run, Option.some.injEq] at h
    simp [h]
  | cons a rest ih =>
    simp only [run] at h
    cases hs : step a p with
    | none => simp [hs] at h
    | some r =>
      rw [hs] at h
      have h1 := ih r h
      have h2 := step_remaining hs
      simp only [List.length_cons]
      omega

theorem run_append (s t : List Action) (p : Packager) :
    run (s ++ t) p = (run s p).bind (run t) := by
  induction s generalizing p with
  | nil => simp [run]
  | cons a rest ih =>
    simp only [List.cons_append, run]
    cases step a p with
    | none => simp
    | some r => simpa using ih r

theorem exists_idle (n : Nat) (p : Packager) (hn : remaining p ≤ n) :
    ∃ more q, run more p = some q ∧ Idle q := by
  induction n generalizing p with
  | zero =>
    refine ⟨[], p, rfl, fun a => ?_⟩
    cases hs : step a p with
    | none => rfl
    | some r =>
      have := step_remaining hs
      omega
  | succ n ih =>
    by_cases hidle : Idle p
    · exact ⟨[], p, rfl, hidle⟩
    · unfold Idle at hidle
      push_neg at hidle
      obtain ⟨a, ha⟩ := hidle
      cases hs : step a p with
      | none => exact absurd hs ha
      | some r =>
        have hlt := step_remaining hs
        obtain ⟨more, q, hrun, hq⟩ := ih r (by omega)
        exact ⟨a :: more, q, by simp [run, hs, hrun], hq⟩

theorem idle_done {N W : Nat} (p : Packager) (hW : 1 ≤ W) (hi : Inv N W p)
    (hidle : Idle p) :
    p.pending = [] ∧ p.queue = [] ∧ ∀ w ∈ p.workers, w = none := by
  have hworkers : ∀ w ∈ p.workers, w = none := by
    intro w hw
    obtain ⟨i, hlt, hget⟩ := List.getElem_of_mem hw
    cases w with
    | none => rfl
    | some j =>
      have h1 : p.workers[i]? = some (some j) := by
        rw [List.getElem?_eq_getElem hlt, hget]
      have h2 := hidle (.finish i)
      simp [step, h1] at h2
  have h0 : p.workers[0]? = some none := by
    have hlt : 0 < p.workers.length := by rw [hi.workers_length]; omega
    rw [List.getElem?_eq_getElem hlt]
    exact congrArg some (hworkers _ (List.getElem_mem hlt))
  have hqueue : p.queue = [] := by
    cases hq : p.queue with
    | nil => rfl
    | cons j rest =>
      have h2 := hidle (.claim 0)
      simp [step, hq, h0] at h2
  have hpending : p.pending = [] := by
    cases hp : p.pending with
    | nil => rfl
    | cons j rest =>
      have h2 := hidle (.handoff 0)
      simp [step, hp, hqueue, h0] at h2
  exact ⟨hpending, hqueue, hworkers⟩

theorem inFlight_nil_of_all_none (l : List (Option Nat)) (h : ∀ w ∈ l, w = none) :
    l.filterMap id = [] := by
  induction l with
  | nil => rfl
  | cons a l ih =>
    have ha : a = none := h a (by simp)
    subst ha
    simpa using ih (fun w hw => h w (by simp [hw]))

theorem main_newPackager_workers (x : lcpserver.Externals) (b : lcpserver.Backend) (w : Nat)
    (h : lcpserver.Call.newPackager b w ∈ (lcpserver.main x).2) : w = 4 := by
  have h1 : ∀ b w, lcpserver.Call.newPackager b w ∉ (lcpserver.loadSettings x).2 := by
    intro b w
    unfold lcpserver.loadSettings
    dsimp only
    generalize (if x.configEnv ≠ "" then x.configEnv else "config.yaml") = configFile
    rcases x.readConfig configFile with e | cfg
    · simp
    · dsimp only
      generalize (if cfg.LcpServer.Database ≠ "" then cfg.LcpServer.Database
          else "sqlite3://file:lcp.sqlite?cache=shared&mode=rwc") = dbURI
      split_ifs
      · simp
      · simp
      · simp
      · rcases x.loadX509KeyPair cfg.Certificate.Cert cfg.Certificate.PrivateKey with _ | e
        · dsimp only
          rcases x.setupDB dbURI with _ | e
          · dsimp only
            rcases x.automigrate with _ | e <;> simp
          · simp
        · simp
  have h2 : ∀ cfg b w, lcpserver.Call.newPackager b w ∉ (lcpserver.storageBackend x cfg).2 := by
    intro cfg b w
    unfold lcpserver.storageBackend
    dsimp only
    split_ifs <;> (try split) <;> simp
  have h3 : ∀ cfg s b w, lcpserver.Call.newPackager b w ∈ (lcpserver.startServer x cfg s).2 →
      w = 4 := by
    intro cfg s b w
    unfold lcpserver.startServer
    dsimp only
    rcases x.stat cfg.LcpServer.AuthFile with _ | e
    · dsimp only
      split <;> simp
    · simp
  have h4 : ∀ b w, lcpserver.Call.newPackager b w ∉ (lcpserver.awaitShutdown x).2 := by
    intro b w
    unfold lcpserver.awaitShutdown
    split <;> simp
  unfold lcpserver.main at h
  generalize hls : lcpserver.loadSettings x = ls at h
  have h1b := h1 b w
  rw [hls] at h1b
  rcases ls with ⟨r1, t1⟩
  rcases r1 with msg | ⟨cfg, dbURI⟩
  · exact absurd h h1b
  · dsimp only at h
    have h2b := h2 cfg b w
    have h3b := h3 cfg (lcpserver.storageBackend x cfg).1 b w
    generalize lcpserver.storageBackend x cfg = sb at h h2b h3b
    rcases sb with ⟨s, t2⟩
    dsimp only at h h3b
    generalize lcpserver.startServer x cfg s = ss at h h3b
    rcases ss with ⟨r3, t3⟩
    have h4b := h4 b w
    rcases r3 with msg | u
    · dsimp only at h
      simp only [List.mem_append] at h
      rcases h with (h | h) | h
      · exact absurd h h1b
      · exact absurd h h2b
      · exact h3b h
    · dsimp only at h
      simp only [List.mem_append] at h
      rcases h with ((h | h) | h) | h
      · exact absurd h h1b
      · exact absurd h h2b
      · exact h3b h
      · exact absurd h h4b

theorem idle_doneTwoJobs : Idle doneTwoJobs := by
  intro a
  cases a with
  | submit => rfl
  | handoff i => rfl
  | claim i => rfl
  | finish i => cases i <;> rfl

/-! ## Claim on the Packager -/

/-- C9: N jobs are submitted to a Packager with W workers, W at least 1 (in particular when
N is larger than W), and actions are scheduled in any order.  Every schedule has at most
3 N actions and can be completed to a state in which no action is enabled; at every point
no job has been delivered twice and no result has been resolved twice; and once no action
is enabled, every job has been delivered to exactly one worker, every job has been
resolved exactly once, nothing is left to submit or queued, and every worker is without a
job.  Every run of `main` that does not panic constructs a Packager with 4 workers and
afterwards feeds it from `server.Src`, and `main` constructs no Packager with another
number of workers. -/
theorem packager_resolves_each_job_once (N W capacity : Nat) (hW : 1 ≤ W)
    (sched : List Action) (p : Packager)
    (hrun : run sched (start N W capacity) = some p) :
    sched.length ≤ 3 * N ∧
    (p.delivered.map Prod.fst).Nodup ∧ p.resolved.Nodup ∧
    (∃ more q, run (sched ++ more) (start N W capacity) = some q ∧ Idle q) ∧
    (Idle p →
      (p.delivered.map Prod.fst).Perm (List.range N) ∧ p.resolved.Perm (List.range N) ∧
      p.pending = [] ∧ p.queue = [] ∧ ∀ w ∈ p.workers, w = none) ∧
    (∀ x, (∀ msg, (lcpserver.main x).1 ≠ .panicked msg) →
      ∃ b pre mid post, (lcpserver.main x).2
        = pre ++ lcpserver.Call.newPackager b 4 ::
            (mid ++ lcpserver.Call.sourceFeed :: post)) ∧
    (∀ x b w, lcpserver.Call.newPackager b w ∈ (lcpserver.main x).2 → w = 4) := by
  have hi : Inv N W p := run_inv sched _ p hrun (start_inv N W capacity)
  have hnodup : (p.pending ++ p.queue ++ inFlight p ++ p.resolved).Nodup :=
    hi.jobs.nodup_iff.mpr (List.nodup_range N)
  have hparts : (inFlight p ++ p.resolved).Nodup := by
    rw [List.append_assoc] at hnodup
    exact (List.nodup_append.mp hnodup).2.1
  refine ⟨?_, hi.deliveries.nodup_iff.mpr hparts, (List.nodup_append.mp hparts).2.1,
    ?_, ?_, lcpserver.main_builds_and_feeds, main_newPackager_workers⟩
  · have := run_remaining sched _ p hrun
    simp only [remaining, start, inFlight, List.length_range, List.length_nil] at this
    have h0 : ((List.replicate W (none : Option Nat)).filterMap id).length = 0 := by
      rw [inFlight_nil_of_all_none _ (fun w hw => (List.mem_replicate.mp hw).2)]
      rfl
    omega
  · obtain ⟨more, q, hq, hidle⟩ := exists_idle (remaining p) p le_rfl
    exact ⟨more, q, by rw [run_append, hrun]; exact hq, hidle⟩
  · intro hidle
    obtain ⟨hp, hq, hw⟩ := idle_done p hW hi hidle
    have hfl : inFlight p = [] := inFlight_nil_of_all_none _ hw
    have hj := hi.jobs
    have hd := hi.deliveries
    rw [hp, hq, hfl] at hj
    rw [hfl] at hd
    simp only [List.nil_append] at hj hd
    exact ⟨hd.trans hj, hj, hp, hq, hw⟩

theorem packager_resolves_each_job_once_witness :
    run [.submit, .claim 0, .submit, .finish 0, .claim 0, .finish 0] (start 2 1 1)
      = some doneTwoJobs ∧
    Idle doneTwoJobs ∧
    ((doneTwoJobs.delivered.map Prod.fst).Perm (List.range 2) ∧
      doneTwoJobs.resolved.Perm (List.range 2) ∧
      doneTwoJobs.pending = [] ∧ doneTwoJobs.queue = [] ∧
      ∀ w ∈ doneTwoJobs.workers, w = none) ∧
    (lcpserver.main (lcpserver.externalsFor lcpserver.cfgEmptyDirectory none)).1
      = .exited 0 ∧
    ∃ b pre mid post,
      (lcpserver.main (lcpserver.externalsFor lcpserver.cfgEmptyDirectory none)).2
        = pre ++ lcpserver.Call.newPackager b 4 ::
            (mid ++ lcpserver.Call.sourceFeed :: post) :=
  have h := packager_resolves_each_job_once 2 1 1 (by decide)
    [.submit, .claim 0, .submit, .finish 0, .claim 0, .finish 0] doneTwoJobs (by decide)
  have hexit : (lcpserver.main (lcpserver.externalsFor lcpserver.cfgEmptyDirectory none)).1
      = .exited 0 := by decide
  ⟨by decide, idle_doneTwoJobs, h.2.2.2.2.1 idle_doneTwoJobs, hexit,
    h.2.2.2.2.2.1 _ (fun msg hmsg => lcpserver.Ending.noConfusion (hexit.symm.trans hmsg))⟩

end pack
